import Mathlib

/-!
Verification of the wallet-revamp multi-chain wallet generator.

The repository is a React single-page app with two variants of one component:
`src/components/WalletGenerator.jsx` (using the `ed25519-hd-key` dependency for
path derivation) and an unnamed variant carrying its own simplified `derivePath`.
This development embeds, byte- and string-faithfully, the parts with algorithmic
content: the custom `derivePath` (with its JavaScript `parseInt` and
`Buffer.writeUInt32BE` semantics), `generateWalletFromMnemonic`, and the state
handlers `handleGenerateWallet`, `handleAddWallet`, `handleDeleteWallet`,
`handleClearWallets`, `togglePrivateKeyVisibility` together with the
`localStorage` snapshot and the saved-state loading effect.

External collaborators (bip39 seed stretching, tweetnacl/ed25519 key expansion,
base58 and Ethereum address encoding) are parameters of the embedding, except
for the hash primitive itself: `nacl.hash` is SHA-512, which is embedded in full
(FIPS 180-4) because the derivation claims compare concrete derived bytes.
Bytes are `Nat` values below 256, machine words are `Nat` reduced mod `2^64`.
-/

set_option maxRecDepth 1000000

namespace WalletRevamp

/-- Reduce a natural number to a 64-bit machine word. -/
def w64 (n : Nat) : Nat := n % 18446744073709551616

/-- Right rotation of a 64-bit word. -/
def rotr64 (x n : Nat) : Nat := w64 ((x >>> n) ||| (x <<< (64 - n)))

/-- SHA-512 Ch function. -/
def sha512Ch (x y z : Nat) : Nat := (x &&& y) ^^^ ((x ^^^ 18446744073709551615) &&& z)

/-- SHA-512 Maj function. -/
def sha512Maj (x y z : Nat) : Nat := (x &&& y) ^^^ (x &&& z) ^^^ (y &&& z)

/-- SHA-512 big sigma 0. -/
def bSig0 (x : Nat) : Nat := rotr64 x 28 ^^^ rotr64 x 34 ^^^ rotr64 x 39

/-- SHA-512 big sigma 1. -/
def bSig1 (x : Nat) : Nat := rotr64 x 14 ^^^ rotr64 x 18 ^^^ rotr64 x 41

/-- SHA-512 small sigma 0. -/
def sSig0 (x : Nat) : Nat := rotr64 x 1 ^^^ rotr64 x 8 ^^^ (x >>> 7)

/-- SHA-512 small sigma 1. -/
def sSig1 (x : Nat) : Nat := rotr64 x 19 ^^^ rotr64 x 61 ^^^ (x >>> 6)

/-- SHA-512 round constants (FIPS 180-4, section 4.2.3). -/
def sha512K : List Nat := [
  4794697086780616226, 8158064640168781261, 13096744586834688815, 16840607885511220156,
  4131703408338449720, 6480981068601479193, 10538285296894168987, 12329834152419229976,
  15566598209576043074, 1334009975649890238, 2608012711638119052, 6128411473006802146,
  8268148722764581231, 9286055187155687089, 11230858885718282805, 13951009754708518548,
  16472876342353939154, 17275323862435702243, 1135362057144423861, 2597628984639134821,
  3308224258029322869, 5365058923640841347, 6679025012923562964, 8573033837759648693,
  10970295158949994411, 12119686244451234320, 12683024718118986047, 13788192230050041572,
  14330467153632333762, 15395433587784984357, 489312712824947311, 1452737877330783856,
  2861767655752347644, 3322285676063803686, 5560940570517711597, 5996557281743188959,
  7280758554555802590, 8532644243296465576, 9350256976987008742, 10552545826968843579,
  11727347734174303076, 12113106623233404929, 14000437183269869457, 14369950271660146224,
  15101387698204529176, 15463397548674623760, 17586052441742319658, 1182934255886127544,
  1847814050463011016, 2177327727835720531, 2830643537854262169, 3796741975233480872,
  4115178125766777443, 5681478168544905931, 6601373596472566643, 7507060721942968483,
  8399075790359081724, 8693463985226723168, 9568029438360202098, 10144078919501101548,
  10430055236837252648, 11840083180663258601, 13761210420658862357, 14299343276471374635,
  14566680578165727644, 15097957966210449927, 16922976911328602910, 17689382322260857208,
  500013540394364858, 748580250866718886, 1242879168328830382, 1977374033974150939,
  2944078676154940804, 3659926193048069267, 4368137639120453308, 4836135668995329356,
  5532061633213252278, 6448918945643986474, 6902733635092675308, 7801388544844847127]

/-- SHA-512 initial hash value (FIPS 180-4, section 5.3.5). -/
def sha512IV : List Nat := [
  7640891576956012808, 13503953896175478587, 4354685564936845355, 11912009170470909681,
  5840696475078001361, 11170449401992604703, 2270897969802886507, 6620516959819538809]

/-- Split a list into chunks of `n` elements, driven by explicit fuel. -/
def chunksGo (n : Nat) : Nat → List α → List (List α)
  | 0, _ => []
  | _, [] => []
  | fuel + 1, l => l.take n :: chunksGo n fuel (l.drop n)

/-- Split a list into chunks of `n` elements (the last may be shorter). -/
def chunks (n : Nat) (l : List α) : List (List α) := chunksGo n l.length l

/-- Big-endian byte list to an unbounded natural number. -/
def beBytesToNat (bs : List Nat) : Nat := bs.foldl (fun acc b => acc * 256 + b) 0

/-- A 64-bit word as 8 big-endian bytes. -/
def wordToBytesBE (x : Nat) : List Nat :=
  [x >>> 56 &&& 255, x >>> 48 &&& 255, x >>> 40 &&& 255, x >>> 32 &&& 255,
   x >>> 24 &&& 255, x >>> 16 &&& 255, x >>> 8 &&& 255, x &&& 255]

/-- A natural number as 16 big-endian bytes (the SHA-512 length field). -/
def lenBytes16 (n : Nat) : List Nat :=
  (List.range 16).map (fun i => n >>> (8 * (15 - i)) &&& 255)

/-- SHA-512 message padding: append `0x80`, zeros, and the 128-bit bit length. -/
def sha512Pad (msg : List Nat) : List Nat :=
  msg ++ 128 :: List.replicate ((128 - (msg.length + 17) % 128) % 128) 0
      ++ lenBytes16 (8 * msg.length)

/-- Extend the (reversed) message schedule by one word. -/
def sha512Extend (ws : List Nat) : List Nat :=
  w64 (sSig1 (ws.getD 1 0) + ws.getD 6 0 + sSig0 (ws.getD 14 0) + ws.getD 15 0) :: ws

/-- Iterate the schedule extension `k` times. -/
def sha512ExtendLoop : Nat → List Nat → List Nat
  | 0, ws => ws
  | k + 1, ws => sha512ExtendLoop k (sha512Extend ws)

/-- The 80-word message schedule of one 128-byte block. -/
def sha512Schedule (block : List Nat) : List Nat :=
  (sha512ExtendLoop 64 ((chunks 8 block).map beBytesToNat).reverse).reverse

/-- Working variables of one SHA-512 compression. -/
structure Sha512Vars where
  va : Nat
  vb : Nat
  vc : Nat
  vd : Nat
  ve : Nat
  vf : Nat
  vg : Nat
  vh : Nat

/-- One SHA-512 round on the working variables. -/
def sha512Round (st : Sha512Vars) (kw : Nat × Nat) : Sha512Vars :=
  let t1 := w64 (st.vh + bSig1 st.ve + sha512Ch st.ve st.vf st.vg + kw.1 + kw.2)
  let t2 := w64 (bSig0 st.va + sha512Maj st.va st.vb st.vc)
  ⟨w64 (t1 + t2), st.va, st.vb, st.vc, w64 (st.vd + t1), st.ve, st.vf, st.vg⟩

/-- SHA-512 compression of one 128-byte block into the 8-word chain value. -/
def sha512Compress (h : List Nat) (block : List Nat) : List Nat :=
  let st0 : Sha512Vars :=
    ⟨h.getD 0 0, h.getD 1 0, h.getD 2 0, h.getD 3 0,
     h.getD 4 0, h.getD 5 0, h.getD 6 0, h.getD 7 0⟩
  let st := (sha512K.zip (sha512Schedule block)).foldl sha512Round st0
  [w64 (h.getD 0 0 + st.va), w64 (h.getD 1 0 + st.vb), w64 (h.getD 2 0 + st.vc),
   w64 (h.getD 3 0 + st.vd), w64 (h.getD 4 0 + st.ve), w64 (h.getD 5 0 + st.vf),
   w64 (h.getD 6 0 + st.vg), w64 (h.getD 7 0 + st.vh)]

/-- SHA-512 of a byte list, as a 64-byte list. This embeds the external hash
primitive the repository uses: `nacl.hash` in the unnamed variant's
`derivePath`, and the HMAC inner hash of the `ed25519-hd-key` dependency. -/
def sha512 (msg : List Nat) : List Nat :=
  (((chunks 128 (sha512Pad msg)).foldl sha512Compress sha512IV).map wordToBytesBE).flatten

/-! ## JavaScript string and number primitives used by the component -/

/-- The apostrophe character, the hardened marker of derivation paths. -/
def apos : Char := Char.ofNat 39

/-- The apostrophe as a one-character string. -/
def aposStr : String := String.singleton apos

/-- Split a character list at every occurrence of `sep`, keeping empty pieces,
like JavaScript `String.prototype.split` with a one-character separator:
splitting the empty string yields one empty piece. -/
def splitOnChar (sep : Char) : List Char → List (List Char)
  | [] => [[]]
  | c :: cs =>
    if c = sep then [] :: splitOnChar sep cs
    else
      match splitOnChar sep cs with
      | [] => [[c]]
      | s :: ss => (c :: s) :: ss

/-- JavaScript whitespace accepted by `parseInt` before the number. -/
def isJsSpace (c : Char) : Bool := c = ' ' || c = '\t' || c = '\n' || c = '\r'

/-- Hexadecimal digit test on a character. -/
def isHexDigitChar (c : Char) : Bool :=
  c.isDigit || (97 ≤ c.toNat && c.toNat ≤ 102) || (65 ≤ c.toNat && c.toNat ≤ 70)

/-- Numeric value of a (decimal or hexadecimal) digit character. -/
def digitVal (c : Char) : Nat :=
  if c.isDigit then c.toNat - 48
  else if 97 ≤ c.toNat then c.toNat - 87
  else c.toNat - 55

/-- Value of a digit list in the given base, most significant digit first. -/
def digitsVal (base : Nat) (cs : List Char) : Nat :=
  cs.foldl (fun n c => base * n + digitVal c) 0

/-- The decimal fragment of JavaScript `parseInt`: the maximal digit prefix,
with no digit at all giving `NaN`, modelled as `none`. -/
def jsParseDecimal (cs : List Char) : Option Nat :=
  let ds := cs.takeWhile Char.isDigit
  if ds.isEmpty then none else some (digitsVal 10 ds)

/-- The unsigned part of JavaScript `parseInt` with no radix argument: a
`0x`/`0X` prefix selects base 16, otherwise base 10. -/
def jsParseIntCore (cs : List Char) : Option Nat :=
  match cs with
  | c0 :: c1 :: rest =>
    if c0 = '0' && (c1 = 'x' || c1 = 'X') then
      let ds := rest.takeWhile isHexDigitChar
      if ds.isEmpty then none else some (digitsVal 16 ds)
    else jsParseDecimal (c0 :: c1 :: rest)
  | _ => jsParseDecimal cs

/-- JavaScript `parseInt(s)` (radix unspecified): leading whitespace is
skipped, an optional sign is read, then `jsParseIntCore`; `NaN` is `none`. -/
def jsParseInt (s : List Char) : Option Int :=
  match s.dropWhile isJsSpace with
  | [] => none
  | c :: rest =>
    if c = '-' then (jsParseIntCore rest).map (fun n => -(n : Int))
    else if c = '+' then (jsParseIntCore rest).map (fun n => (n : Int))
    else (jsParseIntCore (c :: rest)).map (fun n => (n : Int))

/-- Node `Buffer.writeUInt32BE`: the four big-endian bytes of `v`, or a thrown
range error (modelled as `none`) when `v` is outside `[0, 2^32)` — in the
component this is how a `NaN` or oversized path index surfaces. -/
def writeUInt32BE (v : Int) : Option (List Nat) :=
  if 0 ≤ v ∧ v ≤ 4294967295 then
    let n := v.toNat
    some [n >>> 24 &&& 255, n >>> 16 &&& 255, n >>> 8 &&& 255, n &&& 255]
  else none

/-! ## The custom path deriver of the unnamed variant -/

/-- The loop body of `derivePath` over the segments after `segments[0]`: a
segment ending in the hardened marker is parsed, offset by `0x80000000`,
serialized big-endian, and hashed into the running seed; any other segment is
skipped without effect; a parse or serialization error aborts (the JavaScript
code throws, caught by the caller). -/
def derivePathGo : List (List Char) → List Nat → Option (List Nat)
  | [], cur => some cur
  | seg :: rest, cur =>
    if seg.getLast? = some apos then
      (jsParseInt seg.dropLast).bind (fun n =>
        (writeUInt32BE (n + 2147483648)).bind (fun indexBytes =>
          derivePathGo rest ((sha512 (0 :: (cur ++ indexBytes))).take 32)))
    else derivePathGo rest cur

/-- The unnamed variant's `derivePath`: split the path on `/`, iterate from the
second segment, return the running seed as the derived key. The JavaScript
function receives the seed hex-encoded and decodes it back; that round trip is
the identity on bytes and is elided here. `none` models a thrown error. -/
def derivePath (path : List Char) (seed : List Nat) : Option (List Nat) :=
  derivePathGo (splitOnChar '/' path).tail seed

/-! ## Spec-side reference derivers -/

/-- Big-endian serialization of an index with the hardened bit set. -/
def beIndexHardened (i : Nat) : List Nat :=
  let n := i + 2147483648
  [n >>> 24 &&& 255, n >>> 16 &&& 255, n >>> 8 &&& 255, n &&& 255]

/-- Modelled from the spec: the simplified single-hash derivation of section
4.2 (b) — iteratively hash `0x00 ‖ currentSeed ‖ bigEndianIndexWithHardenedBit`
through a 512-bit hash and keep the first 32 bytes as the next `currentSeed`,
seeded initially from the raw seed bytes. -/
def specSimplifiedDerive (indices : List Nat) (seed : List Nat) : List Nat :=
  indices.foldl (fun cur i => (sha512 (0 :: (cur ++ beIndexHardened i))).take 32) seed

/-- ASCII bytes of the string keying the BIP32-Ed25519 master computation. -/
def ed25519SeedKeyBytes : List Nat := [101, 100, 50, 53, 53, 49, 57, 32, 115, 101, 101, 100]

/-- HMAC-SHA512 with the standard `0x36`/`0x5c` padded key schedule. -/
def hmacSha512 (key msg : List Nat) : List Nat :=
  let kh := if 128 < key.length then sha512 key else key
  let k0 := kh ++ List.replicate (128 - kh.length) 0
  sha512 ((k0.map (fun b => b ^^^ 92)) ++ sha512 ((k0.map (fun b => b ^^^ 54)) ++ msg))

/-- Modelled from the spec: the standard BIP32-Ed25519 hierarchical derivation
of section 4.2 (a), the strategy of the `ed25519-hd-key` dependency used by
`WalletGenerator.jsx` and absent from the repository's own sources — a master
(key, chain-code) pair is HMAC-SHA512-derived from the seed under the
`ed25519 seed` key, then each hardened segment HMAC-SHA512-derives the next
pair from `0x00 ‖ key ‖ ser32(index + 2^31)` under the current chain code. -/
def bip32Ed25519Derive (indices : List Nat) (seed : List Nat) : List Nat :=
  let master := hmacSha512 ed25519SeedKeyBytes seed
  (indices.foldl
    (fun kc i =>
      let d := hmacSha512 kc.2 (0 :: (kc.1 ++ beIndexHardened i))
      (d.take 32, d.drop 32))
    (master.take 32, master.drop 32)).1

/-! ## Data model of the wallet collection -/

/-- A derived wallet record, exactly the object built by
`generateWalletFromMnemonic`. -/
structure Wallet where
  publicKey : String
  privateKey : String
  mnemonic : String
  path : String
deriving DecidableEq, Repr

/-- The three `localStorage` keys the component persists through. A stored
value is kept in decoded form: `JSON.stringify`/`JSON.parse` of these values is
a faithful round trip, so serialization is elided. A missing key is `none`. -/
structure Storage where
  wallets : Option (List Wallet)
  mnemonics : Option (List String)
  paths : Option (List String)
deriving DecidableEq, Repr

/-- The component state: the five `useState` cells with algorithmic content
plus the persisted snapshot. -/
structure WGState where
  mnemonicWords : List String
  pathTypes : List String
  wallets : List Wallet
  visiblePrivateKeys : List Bool
  storage : Storage
deriving DecidableEq, Repr

/-- The external cryptographic collaborators of `generateWalletFromMnemonic`:
bip39 seed stretching, tweetnacl Ed25519 public-key expansion, base58
encoding, and the ethers address computation (which throws on an invalid
secp256k1 key, modelled as `none`). -/
structure Externals where
  mnemonicToSeed : String → List Nat
  ed25519PubFromSeed : List Nat → List Nat
  bs58encode : List Nat → String
  ethAddressFromPriv : String → Option String

/-- Hexadecimal character of a nibble, lowercase. -/
def hexChar (n : Nat) : Char := if n < 10 then Char.ofNat (48 + n) else Char.ofNat (87 + n)

/-- Lowercase hex encoding of a byte list, as `Buffer.prototype.toString("hex")`. -/
def hexOfBytes (bs : List Nat) : String :=
  String.mk (bs.foldr (fun b acc => hexChar (b >>> 4) :: hexChar (b &&& 15) :: acc) [])

/-- JavaScript template interpolation of a possibly-undefined value: an absent
`pathTypes[0]` appears in the path string as the text `undefined`. -/
def jsTemplateStr : Option String → String
  | some s => s
  | none => "undefined"

/-- The derivation path string the component builds for a chain type and
account index. -/
def mkPath (pathType : Option String) (accountIndex : Nat) : String :=
  "m/44" ++ aposStr ++ "/" ++ jsTemplateStr pathType ++ aposStr ++ "/0" ++ aposStr
    ++ "/" ++ Nat.repr accountIndex ++ aposStr

/-- The unnamed variant's `generateWalletFromMnemonic`: stretch the mnemonic,
derive along `m/44'/<chain>'/0'/<accountIndex>'`, then build the
chain-specific keypair; `none` models both the caught thrown errors and the
explicit unsupported-chain `null`. The Solana branch checks the 32-byte seed
size `nacl.sign.keyPair.fromSeed` insists on. -/
def generateWalletFromMnemonic (ext : Externals) (pathType : Option String)
    (mnemonic : String) (accountIndex : Nat) : Option Wallet :=
  let seedBuffer := ext.mnemonicToSeed mnemonic
  let path := mkPath pathType accountIndex
  match derivePath path.data seedBuffer with
  | none => none
  | some derivedSeed =>
    if pathType = some "501" then
      if derivedSeed.length = 32 then
        let pub := ext.ed25519PubFromSeed derivedSeed
        some { publicKey := ext.bs58encode pub,
               privateKey := ext.bs58encode (derivedSeed ++ pub),
               mnemonic := mnemonic, path := path }
      else none
    else if pathType = some "60" then
      let priv := "0x" ++ hexOfBytes derivedSeed
      match ext.ethAddressFromPriv priv with
      | none => none
      | some addr =>
        some { publicKey := addr, privateKey := priv, mnemonic := mnemonic, path := path }
    else none

/-- Outcome signal of `handleGenerateWallet`, mirroring its toast calls. -/
inductive GenOutcome
  | created
  | invalidMnemonic
  | generationFailed
deriving DecidableEq, Repr

/-- Outcome signal of `handleAddWallet`, mirroring its toast calls. -/
inductive AddOutcome
  | added
  | noMnemonic
  | addFailed
deriving DecidableEq, Repr

/-- JavaScript `String.prototype.trim`: strip whitespace from both ends. -/
def jsTrim (s : String) : String :=
  String.mk (((s.data.dropWhile Char.isWhitespace).reverse.dropWhile Char.isWhitespace).reverse)

/-- Join words with single spaces, as JavaScript `Array.prototype.join(" ")`. -/
def joinSpace : List String → String
  | [] => ""
  | [w] => w
  | w :: ws => w ++ " " ++ joinSpace ws

/-- The tail of `handleGenerateWallet` once a mnemonic is in hand: store its
words, derive at index `wallets.length`, and on success append the wallet,
persist all three keys, and extend the visibility flags. On failure the words
are already stored but nothing else changes. -/
def handleGenerateWalletCore (ext : Externals) (mnemonic : String) (s : WGState) :
    WGState × GenOutcome :=
  let words := (splitOnChar ' ' mnemonic.data).map String.mk
  let s1 := { s with mnemonicWords := words }
  match generateWalletFromMnemonic ext s.pathTypes.head? mnemonic s.wallets.length with
  | some w =>
    let updatedWallets := s.wallets ++ [w]
    ({ s1 with
         wallets := updatedWallets,
         visiblePrivateKeys := s.visiblePrivateKeys ++ [false],
         storage := { wallets := some updatedWallets,
                      mnemonics := some words,
                      paths := some s.pathTypes } }, GenOutcome.created)
  | none => (s1, GenOutcome.generationFailed)

/-- The unnamed variant's `handleGenerateWallet`: trim the input; an empty
input uses a freshly generated mnemonic (`freshMnemonic`, the value the
external bip39 generator returns), a non-empty one must pass `validate`
(bip39 `validateMnemonic`) or the handler returns with an error signal and no
state change. -/
def handleGenerateWallet (ext : Externals) (validate : String → Bool)
    (freshMnemonic : String) (mnemonicInput : String) (s : WGState) : WGState × GenOutcome :=
  let m := jsTrim mnemonicInput
  if m = "" then handleGenerateWalletCore ext freshMnemonic s
  else if validate m then handleGenerateWalletCore ext m s
  else (s, GenOutcome.invalidMnemonic)

/-- The unnamed variant's `handleAddWallet`: require an established mnemonic,
derive at index `wallets.length`, and on success append the wallet, persist
the `wallets` key only, and extend the visibility flags. -/
def handleAddWallet (ext : Externals) (s : WGState) : WGState × AddOutcome :=
  if s.mnemonicWords.length = 0 then (s, AddOutcome.noMnemonic)
  else
    match generateWalletFromMnemonic ext s.pathTypes.head? (joinSpace s.mnemonicWords)
        s.wallets.length with
    | some w =>
      let updatedWallets := s.wallets ++ [w]
      ({ s with
           wallets := updatedWallets,
           visiblePrivateKeys := s.visiblePrivateKeys ++ [false],
           storage := { s.storage with wallets := some updatedWallets } }, AddOutcome.added)
    | none => (s, AddOutcome.addFailed)

/-- JavaScript `Array.prototype.filter((_, i) => i !== index)`, tracking the
running position `k`. -/
def filterIdxNeFrom (idx : Nat) : Nat → List α → List α
  | _, [] => []
  | k, a :: as =>
    if k = idx then filterIdxNeFrom idx (k + 1) as
    else a :: filterIdxNeFrom idx (k + 1) as

/-- Drop the element at position `idx`, keeping everything else in order. -/
def filterIdxNe (idx : Nat) (l : List α) : List α := filterIdxNeFrom idx 0 l

/-- The `handleDeleteWallet` shared by both variants: filter the wallet list,
the path-type list, and the visibility flags at the same index, and persist
the updated `wallets` and `paths` keys. -/
def handleDeleteWallet (index : Nat) (s : WGState) : WGState :=
  let updatedWallets := filterIdxNe index s.wallets
  let updatedPathTypes := filterIdxNe index s.pathTypes
  { mnemonicWords := s.mnemonicWords,
    pathTypes := updatedPathTypes,
    wallets := updatedWallets,
    visiblePrivateKeys := filterIdxNe index s.visiblePrivateKeys,
    storage := { s.storage with wallets := some updatedWallets,
                                paths := some updatedPathTypes } }

/-- The `handleClearWallets` shared by both variants: remove the three
persistence keys and empty every state cell. -/
def handleClearWallets (_s : WGState) : WGState :=
  { mnemonicWords := [], pathTypes := [], wallets := [], visiblePrivateKeys := [],
    storage := { wallets := none, mnemonics := none, paths := none } }

/-- JavaScript `map((visible, i) => i === index ? !visible : visible)`. -/
def mapToggleFrom (idx : Nat) : Nat → List Bool → List Bool
  | _, [] => []
  | k, b :: bs => (if k = idx then !b else b) :: mapToggleFrom idx (k + 1) bs

/-- The `togglePrivateKeyVisibility` shared by both variants. -/
def togglePrivateKeyVisibility (index : Nat) (s : WGState) : WGState :=
  { s with visiblePrivateKeys := mapToggleFrom index 0 s.visiblePrivateKeys }

/-- The saved-state loading effect: when all three keys are present, every
cell is set from them and the visibility flags are one `false` per stored
wallet; a partially present key set leaves the empty state alone. -/
def loadSavedWallets (s : WGState) : WGState :=
  match s.storage.wallets, s.storage.mnemonics, s.storage.paths with
  | some sw, some sm, some sp =>
    { s with mnemonicWords := sm, wallets := sw, pathTypes := sp,
             visiblePrivateKeys := sw.map (fun _ => false) }
  | _, _, _ => s

/-- The chain-selection buttons: `setPathTypes(["501"])` or
`setPathTypes(["60"])`. -/
def chooseChain (code : String) (s : WGState) : WGState := { s with pathTypes := [code] }

/-- The initial component state: every `useState` cell empty, over whatever
the persistence collaborator holds. -/
def initialState (st : Storage) : WGState :=
  { mnemonicWords := [], pathTypes := [], wallets := [], visiblePrivateKeys := [],
    storage := st }

/-- The length invariant tying the visibility flags to the wallet list. -/
def lenInvariant (s : WGState) : Prop :=
  s.visiblePrivateKeys.length = s.wallets.length

/-- An all-hardened four-segment path `m/44'/<cs>'/0'/<as>'` over textual
coin-type and account segments, in the shape `generateWalletFromMnemonic`
interpolates. -/
def pathChars (cs as : List Char) : List Char :=
  ['m'] ++ '/' :: (['4', '4', apos]
    ++ '/' :: ((cs ++ [apos]) ++ '/' :: (['0', apos] ++ '/' :: (as ++ [apos]))))

/-- The 64-byte seed `mnemonicToSeedSync` produces for the standard twelve
`abandon`-word BIP39 test mnemonic ending in `about`, empty passphrase. -/
def abandonSeed : List Nat :=
  [94, 176, 11, 189, 220, 240, 105, 8, 72, 137, 168, 171, 145, 85, 86, 129,
   101, 245, 196, 83, 204, 184, 94, 112, 129, 26, 174, 214, 246, 218, 95, 193,
   154, 90, 196, 11, 56, 156, 211, 112, 208, 134, 32, 109, 236, 138, 166, 196,
   61, 174, 166, 105, 15, 32, 173, 61, 141, 72, 178, 210, 206, 158, 56, 228]

/-- Deterministic external collaborators for closed runs: shapes match the
real libraries (a 64-byte stretched seed, a 32-byte expanded public key,
total encoders, an address for every offered private key). -/
def trivialExternals : Externals :=
  { mnemonicToSeed := fun _ => List.replicate 64 0,
    ed25519PubFromSeed := fun _ => List.replicate 32 1,
    bs58encode := fun _ => "b58",
    ethAddressFromPriv := fun _ => some "0xAddr" }

/-- A persistence collaborator with no saved state. -/
def emptyStorage : Storage := { wallets := none, mnemonics := none, paths := none }

/-- Ethereum chosen, first wallet created from an imported two-word mnemonic
(the validator accepts it; its content is irrelevant to index assignment). -/
def run60A : WGState :=
  (handleGenerateWallet trivialExternals (fun _ => true) "" "w1 w2"
    (chooseChain "60" (initialState emptyStorage))).1

/-- A second wallet added: account index 1. -/
def run60B : WGState := (handleAddWallet trivialExternals run60A).1

/-- The wallet at list position 1 (account index 1) deleted. -/
def run60C : WGState := handleDeleteWallet 1 run60B

/-- A wallet added after the deletion. -/
def run60D : WGState := (handleAddWallet trivialExternals run60C).1

/-- A populated Solana-side wallet record used in the deletion scenarios. -/
def solWallet (i : Nat) : Wallet :=
  { publicKey := "pk", privateKey := "sk", mnemonic := "w1 w2",
    path := mkPath (some "501") i }

/-- A state with two Solana wallets, the chain selection `["501"]`, and a
matching persisted snapshot. -/
def twoWalletState : WGState :=
  { mnemonicWords := ["w1", "w2"], pathTypes := ["501"],
    wallets := [solWallet 0, solWallet 1], visiblePrivateKeys := [false, false],
    storage := { wallets := some [solWallet 0, solWallet 1],
                 mnemonics := some ["w1", "w2"], paths := some ["501"] } }

/-- A state holding an established mnemonic but no chain selection, as arises
before any chain button is pressed. -/
def noChainState : WGState :=
  { mnemonicWords := ["old"], pathTypes := [], wallets := [],
    visiblePrivateKeys := [], storage := emptyStorage }

/-- One step of the component: any of its operations, with arbitrary inputs
and external collaborators. -/
inductive Step : WGState → WGState → Prop
  | load (s : WGState) : Step s (loadSavedWallets s)
  | choose (code : String) (s : WGState) : Step s (chooseChain code s)
  | generate (ext : Externals) (validate : String → Bool) (fresh input : String)
      (s : WGState) : Step s (handleGenerateWallet ext validate fresh input s).1
  | add (ext : Externals) (s : WGState) : Step s (handleAddWallet ext s).1
  | delete (i : Nat) (s : WGState) : Step s (handleDeleteWallet i s)
  | clear (s : WGState) : Step s (handleClearWallets s)
  | toggle (i : Nat) (s : WGState) : Step s (togglePrivateKeyVisibility i s)

/-! ## Helper lemmas -/

theorem digit_val_bounds (c : Char) (h : c.isDigit = true) : 48 ≤ c.val ∧ c.val ≤ 57 := by
  simp [Char.isDigit] at h; exact h

theorem takeWhile_digits_eq_self (cs : List Char) (h : ∀ c ∈ cs, c.isDigit = true) :
    cs.takeWhile Char.isDigit = cs := List.takeWhile_eq_self_iff.mpr h

theorem jsParseDecimal_digits (c0 : Char) (cs : List Char)
    (h : ∀ c ∈ c0 :: cs, c.isDigit = true) :
    jsParseDecimal (c0 :: cs) = some (digitsVal 10 (c0 :: cs)) := by
  unfold jsParseDecimal
  rw [takeWhile_digits_eq_self _ h]
  rfl

theorem jsParseIntCore_digits (c0 : Char) (cs : List Char)
    (h : ∀ c ∈ c0 :: cs, c.isDigit = true) :
    jsParseIntCore (c0 :: cs) = some (digitsVal 10 (c0 :: cs)) := by
  cases cs with
  | nil =>
    rw [show jsParseIntCore [c0] = jsParseDecimal [c0] from rfl, jsParseDecimal_digits c0 [] h]
  | cons c1 rest =>
    have h1 := digit_val_bounds c1 (h c1 (by simp))
    have hx : (decide (c1 = 'x') || decide (c1 = 'X')) = false := by
      rw [decide_eq_false (fun hc : c1 = 'x' => absurd (hc ▸ h1.2) (by decide)),
          decide_eq_false (fun hc : c1 = 'X' => absurd (hc ▸ h1.2) (by decide))]
      rfl
    rw [show jsParseIntCore (c0 :: c1 :: rest)
          = if (c0 = '0' && (c1 = 'x' || c1 = 'X')) then
              (let ds := rest.takeWhile isHexDigitChar
               if ds.isEmpty then none else some (digitsVal 16 ds))
            else jsParseDecimal (c0 :: c1 :: rest) from rfl,
        hx, Bool.and_false, if_neg (by simp), jsParseDecimal_digits c0 (c1 :: rest) h]

theorem digit_not_jsSpace (c : Char) (h : c.isDigit = true) : isJsSpace c = false := by
  have hb := digit_val_bounds c h
  unfold isJsSpace
  rw [decide_eq_false (fun hc : c = ' ' => absurd (hc ▸ hb.1) (by decide)),
      decide_eq_false (fun hc : c = '\t' => absurd (hc ▸ hb.1) (by decide)),
      decide_eq_false (fun hc : c = '\n' => absurd (hc ▸ hb.1) (by decide)),
      decide_eq_false (fun hc : c = '\r' => absurd (hc ▸ hb.1) (by decide))]
  rfl

theorem jsParseInt_digits (c0 : Char) (cs : List Char)
    (h : ∀ c ∈ c0 :: cs, c.isDigit = true) :
    jsParseInt (c0 :: cs) = some ((digitsVal 10 (c0 :: cs) : Nat) : Int) := by
  have h0 := digit_val_bounds c0 (h c0 (by simp))
  have hdw : (c0 :: cs).dropWhile isJsSpace = c0 :: cs := by
    rw [List.dropWhile_cons, digit_not_jsSpace c0 (h c0 (by simp))]
    simp
  unfold jsParseInt
  rw [hdw]
  simp only [if_neg (show ¬(c0 = '-') from fun hc => absurd (hc ▸ h0.1) (by decide)),
             if_neg (show ¬(c0 = '+') from fun hc => absurd (hc ▸ h0.1) (by decide)),
             jsParseIntCore_digits c0 cs h]
  rfl

theorem writeUInt32BE_hardened (n : Nat) (h : n < 2147483648) :
    writeUInt32BE ((n : Int) + 2147483648) = some (beIndexHardened n) := by
  unfold writeUInt32BE beIndexHardened
  rw [if_pos (by constructor <;> omega)]
  have ht : ((n : Int) + 2147483648).toNat = n + 2147483648 := by omega
  rw [ht]

theorem splitOnChar_append (sep : Char) (l rest : List Char) (h : ∀ c ∈ l, c ≠ sep) :
    splitOnChar sep (l ++ sep :: rest) = l :: splitOnChar sep rest := by
  induction l with
  | nil => simp [splitOnChar]
  | cons c cs ih =>
    have hc : c ≠ sep := h c (List.mem_cons_self c cs)
    have hcs : ∀ x ∈ cs, x ≠ sep := fun x hx => h x (List.mem_cons_of_mem c hx)
    rw [List.cons_append]
    conv_lhs => simp only [splitOnChar]
    rw [if_neg hc, ih hcs]

theorem splitOnChar_no_sep (sep : Char) (l : List Char) (h : ∀ c ∈ l, c ≠ sep) :
    splitOnChar sep l = [l] := by
  induction l with
  | nil => rfl
  | cons c cs ih =>
    have hc : c ≠ sep := h c (List.mem_cons_self c cs)
    have hcs : ∀ x ∈ cs, x ≠ sep := fun x hx => h x (List.mem_cons_of_mem c hx)
    conv_lhs => simp only [splitOnChar]
    rw [if_neg hc, ih hcs]

theorem derivePathGo_digit_seg (cs : List Char) (rest : List (List Char)) (cur : List Nat)
    (hne : cs ≠ []) (h : ∀ c ∈ cs, c.isDigit = true) (hb : digitsVal 10 cs < 2147483648) :
    derivePathGo ((cs ++ [apos]) :: rest) cur
      = derivePathGo rest ((sha512 (0 :: (cur ++ beIndexHardened (digitsVal 10 cs)))).take 32) := by
  obtain ⟨c0, cs', rfl⟩ := List.exists_cons_of_ne_nil hne
  have hgl : ((c0 :: cs') ++ [apos]).getLast? = some apos := List.getLast?_concat _
  rw [show derivePathGo (((c0 :: cs') ++ [apos]) :: rest) cur
        = (if ((c0 :: cs') ++ [apos]).getLast? = some apos then
            (jsParseInt ((c0 :: cs') ++ [apos]).dropLast).bind (fun n =>
              (writeUInt32BE (n + 2147483648)).bind (fun indexBytes =>
                derivePathGo rest ((sha512 (0 :: (cur ++ indexBytes))).take 32)))
          else derivePathGo rest cur) from rfl,
      if_pos hgl, List.dropLast_concat, jsParseInt_digits c0 cs' h, Option.some_bind,
      writeUInt32BE_hardened _ hb, Option.some_bind]

theorem derivePathGo_skip (segs : List (List Char)) (cur : List Nat)
    (h : ∀ seg ∈ segs, seg.getLast? ≠ some apos) :
    derivePathGo segs cur = some cur := by
  induction segs with
  | nil => rfl
  | cons seg rest ih =>
    unfold derivePathGo
    rw [if_neg (h seg (by simp))]
    exact ih (fun s hs => h s (by simp [hs]))

theorem generateWalletFromMnemonic_path (ext : Externals) (pt : Option String)
    (m : String) (i : Nat) (w : Wallet)
    (h : generateWalletFromMnemonic ext pt m i = some w) :
    w.path = mkPath pt i := by
  dsimp only [generateWalletFromMnemonic] at h
  cases hd : derivePath (mkPath pt i).data (ext.mnemonicToSeed m) with
  | none => rw [hd] at h; exact absurd h (by simp)
  | some ds =>
    rw [hd] at h
    dsimp only at h
    by_cases h501 : pt = some "501"
    · rw [if_pos h501] at h
      by_cases hlen : ds.length = 32
      · rw [if_pos hlen] at h
        cases h
        rfl
      · rw [if_neg hlen] at h
        exact absurd h (by simp)
    · rw [if_neg h501] at h
      by_cases h60 : pt = some "60"
      · rw [if_pos h60] at h
        cases ha : ext.ethAddressFromPriv ("0x" ++ hexOfBytes ds) with
        | none => rw [ha] at h; exact absurd h (by simp)
        | some addr =>
          rw [ha] at h
          cases h
          rfl
      · rw [if_neg h60] at h
        exact absurd h (by simp)

theorem filterIdxNeFrom_length_eq {α β : Type} (idx : Nat) :
    ∀ (k : Nat) (l₁ : List α) (l₂ : List β), l₁.length = l₂.length →
      (filterIdxNeFrom idx k l₁).length = (filterIdxNeFrom idx k l₂).length := by
  intro k l₁
  induction l₁ generalizing k with
  | nil =>
    intro l₂ h
    cases l₂ with
    | nil => rfl
    | cons b bs => simp at h
  | cons a as ih =>
    intro l₂ h
    cases l₂ with
    | nil => simp at h
    | cons b bs =>
      simp only [List.length_cons, Nat.add_right_cancel_iff] at h
      unfold filterIdxNeFrom
      by_cases hk : k = idx
      · rw [if_pos hk, if_pos hk]
        exact ih (k + 1) bs h
      · rw [if_neg hk, if_neg hk]
        simp [ih (k + 1) bs h]

theorem mapToggleFrom_length (idx : Nat) :
    ∀ (k : Nat) (l : List Bool), (mapToggleFrom idx k l).length = l.length := by
  intro k l
  induction l generalizing k with
  | nil => rfl
  | cons b bs ih => simp [mapToggleFrom, ih]

theorem specSimplifiedDerive_cons (i : Nat) (is : List Nat) (seed : List Nat) :
    specSimplifiedDerive (i :: is) seed
      = specSimplifiedDerive is ((sha512 (0 :: (seed ++ beIndexHardened i))).take 32) := rfl

theorem specSimplifiedDerive_nil (seed : List Nat) :
    specSimplifiedDerive [] seed = seed := rfl

theorem handleGenerateWalletCore_inv (ext : Externals) (m : String) (s : WGState)
    (h : lenInvariant s) : lenInvariant (handleGenerateWalletCore ext m s).1 := by
  unfold handleGenerateWalletCore
  cases hg : generateWalletFromMnemonic ext s.pathTypes.head? m s.wallets.length with
  | none => exact h
  | some w => simp [lenInvariant] at *; omega

theorem handleGenerateWalletCore_failure (ext : Externals) (m : String) (s : WGState)
    (hf : generateWalletFromMnemonic ext s.pathTypes.head? m s.wallets.length = none) :
    handleGenerateWalletCore ext m s
      = ({ s with mnemonicWords := (splitOnChar ' ' m.data).map String.mk },
         GenOutcome.generationFailed) := by
  unfold handleGenerateWalletCore
  rw [hf]

/-! ## The claims -/

/-- C1 counterexample. The claim says account indices are never reused after
a deletion. In the embedded run, a first wallet is created (account index 0)
and a second added (account index 1); the wallet at list position 1 is
deleted; the next add derives at `wallets.length = 1` again, so the new
wallet's path carries account index 1 — an index already assigned earlier in
the sequence. -/
theorem accountIndex_reuse_after_delete :
    run60B.wallets.map Wallet.path = [mkPath (some "60") 0, mkPath (some "60") 1] ∧
    run60C.wallets.map Wallet.path = [mkPath (some "60") 0] ∧
    run60D.wallets.map Wallet.path = [mkPath (some "60") 0, mkPath (some "60") 1] := by
  decide

/-- C1 amended: a successful `handleAddWallet` appends a wallet whose path
carries account index `wallets.length` — the current wallet count — and grows
the count by one. Indices therefore increase strictly across deletion-free
histories, but a deletion lowers the count and a later add reuses an index,
as the counterexample shows. -/
theorem addWallet_assigns_current_count (ext : Externals) (s : WGState)
    (h : (handleAddWallet ext s).2 = AddOutcome.added) :
    (handleAddWallet ext s).1.wallets.map Wallet.path
        = s.wallets.map Wallet.path ++ [mkPath s.pathTypes.head? s.wallets.length] ∧
    (handleAddWallet ext s).1.wallets.length = s.wallets.length + 1 := by
  unfold handleAddWallet at h ⊢
  by_cases hm : s.mnemonicWords.length = 0
  · rw [if_pos hm] at h
    exact absurd h (by simp)
  · rw [if_neg hm] at h ⊢
    cases hg : generateWalletFromMnemonic ext s.pathTypes.head? (joinSpace s.mnemonicWords)
        s.wallets.length with
    | none =>
      rw [hg] at h
      exact absurd h (by simp)
    | some w =>
      dsimp only
      exact ⟨by simp [generateWalletFromMnemonic_path _ _ _ _ _ hg], by simp⟩

/-- Witness for the amended C1 theorem at the second add of the embedded run. -/
theorem addWallet_assigns_current_count_witness :
    (handleAddWallet trivialExternals run60A).2 = AddOutcome.added ∧
    ((handleAddWallet trivialExternals run60A).1.wallets.map Wallet.path
        = run60A.wallets.map Wallet.path
            ++ [mkPath run60A.pathTypes.head? run60A.wallets.length] ∧
     (handleAddWallet trivialExternals run60A).1.wallets.length
        = run60A.wallets.length + 1) :=
  ⟨by decide, addWallet_assigns_current_count trivialExternals run60A (by decide)⟩

/-- C2: at the seed of the standard BIP39 test mnemonic and the component's
Solana path for account 0, the repository's simplified `derivePath` and the
spec's BIP32-Ed25519 hierarchical derivation produce different 32-byte keys:
the two derivation strategies present in the repository are not extensionally
equal. -/
theorem derivation_strategies_differ :
    derivePath (mkPath (some "501") 0).data abandonSeed
        ≠ some (bip32Ed25519Derive [44, 501, 0, 0] abandonSeed) ∧
    (derivePath (mkPath (some "501") 0).data abandonSeed).map List.length = some 32 ∧
    (bip32Ed25519Derive [44, 501, 0, 0] abandonSeed).length = 32 := by
  decide

/-- C3: on every well-formed all-hardened path `m/44'/c'/0'/a'` (digit
segments below `2^31`), the custom `derivePath` computes exactly the spec's
simplified single-hash derivation over the indices `44, c, 0, a`. -/
theorem derivePath_matches_spec_simplified (cs as : List Char) (seed : List Nat)
    (hcne : cs ≠ []) (hc : ∀ c ∈ cs, c.isDigit = true) (hcb : digitsVal 10 cs < 2147483648)
    (hane : as ≠ []) (ha : ∀ c ∈ as, c.isDigit = true) (hab : digitsVal 10 as < 2147483648) :
    derivePath (pathChars cs as) seed
      = some (specSimplifiedDerive [44, digitsVal 10 cs, 0, digitsVal 10 as] seed) := by
  have hslash : ∀ l : List Char, (∀ c ∈ l, c.isDigit = true) → ∀ c ∈ l ++ [apos], c ≠ '/' := by
    intro l hl c hcmem
    rcases List.mem_append.mp hcmem with hmem | hmem
    · exact fun hc => absurd (hc ▸ (digit_val_bounds c (hl c hmem)).1) (by decide)
    · simp at hmem
      subst hmem
      decide
  unfold derivePath pathChars
  rw [splitOnChar_append '/' ['m'] _ (by decide),
      splitOnChar_append '/' ['4', '4', apos] _ (by decide),
      splitOnChar_append '/' (cs ++ [apos]) _ (hslash cs hc),
      splitOnChar_append '/' ['0', apos] _ (by decide),
      splitOnChar_no_sep '/' (as ++ [apos]) (hslash as ha)]
  rw [List.tail_cons]
  rw [show (['4', '4', apos] : List Char) = ['4', '4'] ++ [apos] from rfl,
      derivePathGo_digit_seg ['4', '4'] _ seed (by decide) (by decide) (by decide),
      derivePathGo_digit_seg cs _ _ hcne hc hcb,
      show (['0', apos] : List Char) = ['0'] ++ [apos] from rfl,
      derivePathGo_digit_seg ['0'] _ _ (by decide) (by decide) (by decide),
      derivePathGo_digit_seg as _ _ hane ha hab]
  rw [show digitsVal 10 ['4', '4'] = 44 from by decide,
      show digitsVal 10 ['0'] = 0 from by decide]
  conv_rhs => rw [specSimplifiedDerive_cons, specSimplifiedDerive_cons,
                  specSimplifiedDerive_cons, specSimplifiedDerive_cons,
                  specSimplifiedDerive_nil]
  rfl

/-- Witness for C3 at the Solana coin type, account 7, and the test seed. -/
theorem derivePath_matches_spec_simplified_witness :
    derivePath (pathChars ['5', '0', '1'] ['7']) abandonSeed
      = some (specSimplifiedDerive
          [44, digitsVal 10 ['5', '0', '1'], 0, digitsVal 10 ['7']] abandonSeed) :=
  derivePath_matches_spec_simplified ['5', '0', '1'] ['7'] abandonSeed
    (by decide) (by decide) (by decide) (by decide) (by decide) (by decide)

/-- C4 names a real bug: `handleDeleteWallet` filters the one-element
`pathTypes` chain selection with the wallet index, so deleting the wallet at
list position 0 empties the selection (in memory and in the persisted `paths`
key) even though another wallet remains, and the next `handleAddWallet`
fails — the chain type interpolates as `undefined` and derivation throws.
The claim (and the spec) say the chain selection is unchanged by deletion. -/
theorem deleteWallet_resets_chain_selection :
    twoWalletState.pathTypes = ["501"] ∧
    (handleDeleteWallet 0 twoWalletState).wallets = [solWallet 1] ∧
    (handleDeleteWallet 0 twoWalletState).pathTypes = [] ∧
    (handleDeleteWallet 0 twoWalletState).storage.paths = some [] ∧
    (handleAddWallet trivialExternals (handleDeleteWallet 0 twoWalletState)).2
        = AddOutcome.addFailed := by
  decide

/-- C5 counterexample. The claim says a failed derivation leaves the entire
state — including the collection's mnemonic — exactly as before. In the
embedded run an imported mnemonic is accepted, derivation fails (no chain is
selected, so the chain type interpolates as `undefined` and the path throws),
yet the in-memory mnemonic words have already been replaced by the new
words: `setMnemonicWords` runs before the derivation call. -/
theorem generate_failure_replaces_mnemonic :
    (handleGenerateWallet trivialExternals (fun _ => true) "" "w1 w2" noChainState).2
        = GenOutcome.generationFailed ∧
    (handleGenerateWallet trivialExternals (fun _ => true) "" "w1 w2" noChainState).1.mnemonicWords
        = ["w1", "w2"] ∧
    noChainState.mnemonicWords = ["old"] := by
  decide

/-- C5 amended: when the derivation call fails, the wallet list, visibility
flags, chain selection, and the entire persisted snapshot are unchanged and
the failure is signalled — but the in-memory mnemonic words have already been
replaced by the words of the attempted mnemonic; only the persisted mnemonic
is replaced exclusively on success. -/
theorem generate_failure_frame (ext : Externals) (validate : String → Bool)
    (fresh input : String) (s : WGState)
    (hv : jsTrim input = "" ∨ validate (jsTrim input) = true)
    (hf : generateWalletFromMnemonic ext s.pathTypes.head?
            (if jsTrim input = "" then fresh else jsTrim input) s.wallets.length = none) :
    (handleGenerateWallet ext validate fresh input s).1.wallets = s.wallets ∧
    (handleGenerateWallet ext validate fresh input s).1.visiblePrivateKeys
        = s.visiblePrivateKeys ∧
    (handleGenerateWallet ext validate fresh input s).1.pathTypes = s.pathTypes ∧
    (handleGenerateWallet ext validate fresh input s).1.storage = s.storage ∧
    (handleGenerateWallet ext validate fresh input s).2 = GenOutcome.generationFailed ∧
    (handleGenerateWallet ext validate fresh input s).1.mnemonicWords
        = (splitOnChar ' '
            (if jsTrim input = "" then fresh else jsTrim input).data).map String.mk := by
  unfold handleGenerateWallet
  by_cases he : jsTrim input = ""
  · simp only [if_pos he] at hf ⊢
    rw [handleGenerateWalletCore_failure ext fresh s hf]
    exact ⟨rfl, rfl, rfl, rfl, rfl, rfl⟩
  · rcases hv with hv | hv
    · exact absurd hv he
    · simp only [if_neg he] at hf ⊢
      rw [if_pos hv, handleGenerateWalletCore_failure ext (jsTrim input) s hf]
      exact ⟨rfl, rfl, rfl, rfl, rfl, rfl⟩

/-- Witness for the amended C5 theorem at the counterexample run. -/
theorem generate_failure_frame_witness :
    (handleGenerateWallet trivialExternals (fun _ => true) "" "w1 w2" noChainState).1.wallets
        = noChainState.wallets ∧
    (handleGenerateWallet trivialExternals (fun _ => true) "" "w1 w2"
        noChainState).1.visiblePrivateKeys = noChainState.visiblePrivateKeys ∧
    (handleGenerateWallet trivialExternals (fun _ => true) "" "w1 w2" noChainState).1.pathTypes
        = noChainState.pathTypes ∧
    (handleGenerateWallet trivialExternals (fun _ => true) "" "w1 w2" noChainState).1.storage
        = noChainState.storage ∧
    (handleGenerateWallet trivialExternals (fun _ => true) "" "w1 w2" noChainState).2
        = GenOutcome.generationFailed ∧
    (handleGenerateWallet trivialExternals (fun _ => true) "" "w1 w2"
        noChainState).1.mnemonicWords
        = (splitOnChar ' '
            (if jsTrim "w1 w2" = "" then "" else jsTrim "w1 w2").data).map String.mk :=
  generate_failure_frame trivialExternals (fun _ => true) "" "w1 w2" noChainState
    (Or.inr rfl) (by decide)

/-- C6 counterexample. The claim says every malformed path fails with an
`InvalidPath` error rather than returning key material. The path `m/44` has a
segment missing the hardened marker, yet `derivePath` succeeds and returns
the seed as key material. -/
theorem malformed_path_returns_key_material :
    derivePath ['m', '/', '4', '4'] abandonSeed = some abandonSeed := by
  decide

/-- C6 amended: the deriver has no `InvalidPath` error at all. A hardened
segment whose body parses to no number makes the derivation throw (modelled
as `none`), while a segment merely missing the hardened marker is silently
skipped and key material is still returned. -/
theorem malformed_path_partial_failure (seed : List Nat) :
    derivePath ['m', '/', 'x', apos] seed = none ∧
    derivePath ['m', '/', '4', '4'] seed = some seed :=
  ⟨rfl, rfl⟩

/-- C7: a non-blank input phrase rejected by the bip39 validator makes
`handleGenerateWallet` return the invalid-mnemonic signal with the state
untouched — no derivation is attempted (the external collaborators are
universally quantified and unused) and zero wallets are added. -/
theorem invalid_mnemonic_rejected (ext : Externals) (validate : String → Bool)
    (fresh input : String) (s : WGState)
    (hne : jsTrim input ≠ "") (hv : validate (jsTrim input) = false) :
    handleGenerateWallet ext validate fresh input s = (s, GenOutcome.invalidMnemonic) := by
  unfold handleGenerateWallet
  rw [if_neg hne, if_neg (by simp [hv])]

/-- Witness for C7 at the claim's own example, a three-word phrase. -/
theorem invalid_mnemonic_rejected_witness :
    handleGenerateWallet trivialExternals (fun _ => false) "" "a b c" twoWalletState
      = (twoWalletState, GenOutcome.invalidMnemonic) :=
  invalid_mnemonic_rejected trivialExternals (fun _ => false) "" "a b c" twoWalletState
    (by decide) rfl

/-- C8: for every state, `handleClearWallets` empties the collection, the
mnemonic, the visibility flags, and the chain-type selection, and removes all
three persistence keys. -/
theorem clearAll_resets_collection (s : WGState) :
    (handleClearWallets s).wallets = [] ∧
    (handleClearWallets s).mnemonicWords = [] ∧
    (handleClearWallets s).pathTypes = [] ∧
    (handleClearWallets s).visiblePrivateKeys = [] ∧
    (handleClearWallets s).storage.wallets = none ∧
    (handleClearWallets s).storage.mnemonics = none ∧
    (handleClearWallets s).storage.paths = none :=
  ⟨rfl, rfl, rfl, rfl, rfl, rfl, rfl⟩

/-- C9: the invariant `len(visibilityFlags) = len(wallets)` holds in every
initial state and is preserved by every operation of the component. -/
theorem visibility_matches_wallets :
    (∀ st : Storage, lenInvariant (initialState st)) ∧
    (∀ s s' : WGState, lenInvariant s → Step s s' → lenInvariant s') := by
  constructor
  · intro st
    rfl
  · intro s s' h hstep
    cases hstep with
    | load s =>
      unfold lenInvariant at h ⊢
      unfold loadSavedWallets
      split
      · simp
      · exact h
    | choose code s => exact h
    | generate ext validate fresh input s =>
      unfold handleGenerateWallet
      by_cases he : jsTrim input = ""
      · rw [if_pos he]
        exact handleGenerateWalletCore_inv ext fresh s h
      · rw [if_neg he]
        by_cases hv : validate (jsTrim input) = true
        · rw [if_pos hv]
          exact handleGenerateWalletCore_inv ext (jsTrim input) s h
        · rw [if_neg hv]
          exact h
    | add ext s =>
      unfold handleAddWallet
      by_cases hm : s.mnemonicWords.length = 0
      · rw [if_pos hm]
        exact h
      · rw [if_neg hm]
        cases hg : generateWalletFromMnemonic ext s.pathTypes.head?
            (joinSpace s.mnemonicWords) s.wallets.length with
        | none => exact h
        | some w =>
          unfold lenInvariant at h ⊢
          simp
          omega
    | delete i s =>
      unfold lenInvariant at h ⊢
      unfold handleDeleteWallet
      exact filterIdxNeFrom_length_eq i 0 s.visiblePrivateKeys s.wallets h
    | clear s => rfl
    | toggle i s =>
      unfold lenInvariant at h ⊢
      unfold togglePrivateKeyVisibility
      rw [mapToggleFrom_length i 0 s.visiblePrivateKeys]
      exact h

/-- Witness for C9: the invariant after one chain-selection step from an
initial state. -/
theorem visibility_matches_wallets_witness :
    lenInvariant (chooseChain "60" (initialState emptyStorage)) :=
  visibility_matches_wallets.2 (initialState emptyStorage) _
    (visibility_matches_wallets.1 emptyStorage)
    (Step.choose "60" (initialState emptyStorage))

/-- C10: a path none of whose segments after the leading one carries the
hardened marker leaves the loop without a single hash step, so the custom
`derivePath` returns the input seed bytes unchanged. -/
theorem nonhardened_path_returns_seed (path : List Char) (seed : List Nat)
    (h : ∀ seg ∈ (splitOnChar '/' path).tail, seg.getLast? ≠ some apos) :
    derivePath path seed = some seed := by
  unfold derivePath
  exact derivePathGo_skip _ _ h

/-- Witness for C10 at a marker-free path and the 64-byte test seed: the full
seed comes back rather than 32-byte key material. -/
theorem nonhardened_path_returns_seed_witness :
    derivePath "m/44/501/0/7".data abandonSeed = some abandonSeed ∧
    abandonSeed.length = 64 :=
  ⟨nonhardened_path_returns_seed "m/44/501/0/7".data abandonSeed (by decide), by decide⟩

end WalletRevamp
